import Mathlib

/-!
Shallow embedding of src/TransformationSystem/Agent/TransformationAgent.py
(class TransformationAgent) and proofs about the claims of the specification.

Python dictionaries are modelled as association lists preserving insertion
order; the S_OK / S_ERROR result dictionaries of DIRAC are modelled by the
DRes type; Python exceptions are modelled by Except PyErr; remote calls made
by the agent are recorded in a trace so that theorems can speak about which
remote services were contacted.
-/

namespace TransformationAgent

/-- Python exceptions that the modelled code can raise. -/
inductive PyErr : Type
  | typeError (msg : String)
  | attributeError (msg : String)
  | osError (msg : String)
deriving DecidableEq

/-- a DIRAC result dictionary: S_OK carries a value, S_ERROR carries a message. -/
inductive DRes (α : Type) : Type
  | sok (v : α)
  | serr (msg : String)
deriving DecidableEq

/-- decidable equality for Except values, so that concrete runs of the
model can be checked by decide. -/
def exceptDecEq {ε α : Type} [DecidableEq ε] [DecidableEq α] :
    (a b : Except ε α) → Decidable (a = b)
  | Except.ok a, Except.ok b =>
      if h : a = b then isTrue (by rw [h])
      else isFalse (fun hc => h (Except.ok.inj hc))
  | Except.ok _, Except.error _ => isFalse (fun hc => Except.noConfusion hc)
  | Except.error _, Except.ok _ => isFalse (fun hc => Except.noConfusion hc)
  | Except.error e, Except.error f =>
      if h : e = f then isTrue (by rw [h])
      else isFalse (fun hc => h (Except.error.inj hc))

instance instDecEqExcept {ε α : Type} [DecidableEq ε] [DecidableEq α] :
    DecidableEq (Except ε α) := exceptDecEq

/-- dictionary lookup, first matching key (Python dict keys are unique). -/
def dlookup {κ β : Type} [DecidableEq κ] : List (κ × β) → κ → Option β
  | [], _ => none
  | p :: rest, k => if p.1 = k then some p.2 else dlookup rest k

/-- Python membership test k in d. -/
def dmem {κ β : Type} [DecidableEq κ] (l : List (κ × β)) (k : κ) : Bool :=
  (dlookup l k).isSome

/-- Python dict assignment d[k] = v: replace the value if the key exists,
append the pair otherwise. -/
def dinsert {κ β : Type} [DecidableEq κ] : List (κ × β) → κ → β → List (κ × β)
  | [], k, v => [(k, v)]
  | p :: rest, k, v => if p.1 = k then (k, v) :: rest else p :: dinsert rest k v

theorem dlookup_dinsert_self {κ β : Type} [DecidableEq κ]
    (l : List (κ × β)) (k : κ) (v : β) : dlookup (dinsert l k v) k = some v := by
  induction l with
  | nil => simp [dinsert, dlookup]
  | cons p rest ih =>
      by_cases h : p.1 = k
      · simp [dinsert, h, dlookup]
      · simp [dinsert, h, dlookup, ih]

theorem dlookup_mem {κ β : Type} [DecidableEq κ]
    {l : List (κ × β)} {k : κ} {v : β} (h : dlookup l k = some v) : (k, v) ∈ l := by
  induction l with
  | nil => simp [dlookup] at h
  | cons p rest ih =>
      by_cases hk : p.1 = k
      · simp only [dlookup, hk, if_true, Option.some.injEq] at h
        exact List.mem_cons.mpr (Or.inl (by cases p; simp_all))
      · simp only [dlookup, hk, if_false] at h
        exact List.mem_cons.mpr (Or.inr (ih h))

theorem dlookup_eq_none_of_not_mem_keys {κ β : Type} [DecidableEq κ]
    {l : List (κ × β)} {k : κ} (h : k ∉ l.map Prod.fst) : dlookup l k = none := by
  induction l with
  | nil => simp [dlookup]
  | cons p rest ih =>
      rw [List.map_cons, List.mem_cons] at h
      push_neg at h
      have hne : ¬ p.1 = k := fun hc => h.1 hc.symm
      simp [dlookup, hne, ih h.2]

/-!
## The in-flight list (claim C1)

The constructor sets self.transInQueue = []. The poller execute() appends a
transformation identifier only when it is not already present:

    if transID not in self.transInQueue:
      self.transInQueue.append( transID )

and the worker loop _execute removes the identifier in its finally block
after processTransformation has returned or raised:

    finally:
      if transID in self.transInQueue:
        self.transInQueue.remove( transID )
-/

/-- one iteration of the enqueue loop of execute(): append transID only if
it is not already present in transInQueue. -/
def enqueueStep (q : List Int) (tid : Int) : List Int :=
  if tid ∈ q then q else q ++ [tid]

/-- the whole enqueue loop of execute() over the fetched transformation
identifiers, in order. -/
def executeEnqueue (q : List Int) (tids : List Int) : List Int :=
  tids.foldl enqueueStep q

/-- the finally block of the worker loop _execute: remove the identifier
(Python list.remove drops the first occurrence) if present. -/
def finishStep (q : List Int) (tid : Int) : List Int :=
  if tid ∈ q then q.erase tid else q

/-- transitions of the transInQueue list: a poll cycle of execute(), or the
end of one worker iteration. -/
inductive QueueStep : List Int → List Int → Prop
  | poll (q tids : List Int) : QueueStep q (executeEnqueue q tids)
  | finish (q : List Int) (tid : Int) : QueueStep q (finishStep q tid)

/-- states of transInQueue reachable from the initial empty list. -/
inductive QueueReachable : List Int → Prop
  | start : QueueReachable []
  | step {q q1 : List Int} : QueueReachable q → QueueStep q q1 → QueueReachable q1

theorem enqueueStep_nodup {q : List Int} (h : q.Nodup) (tid : Int) :
    (enqueueStep q tid).Nodup := by
  unfold enqueueStep
  by_cases hm : tid ∈ q
  · simpa [hm] using h
  · simp only [hm, if_false]
    rw [List.nodup_append]
    refine ⟨h, List.nodup_singleton tid, ?_⟩
    intro a ha hb
    simp at hb
    exact hm (hb ▸ ha)

theorem executeEnqueue_nodup {q : List Int} (tids : List Int) (h : q.Nodup) :
    (executeEnqueue q tids).Nodup := by
  induction tids generalizing q with
  | nil => simpa [executeEnqueue] using h
  | cons t rest ih =>
      simp only [executeEnqueue, List.foldl_cons]
      exact ih (enqueueStep_nodup h t)

theorem finishStep_nodup {q : List Int} (h : q.Nodup) (tid : Int) :
    (finishStep q tid).Nodup := by
  unfold finishStep
  by_cases hm : tid ∈ q
  · simpa [hm] using (q.erase_sublist tid).nodup h
  · simpa [hm] using h

theorem not_mem_finishStep {q : List Int} (h : q.Nodup) (tid : Int) :
    tid ∉ finishStep q tid := by
  unfold finishStep
  by_cases hm : tid ∈ q
  · simp only [hm, if_true]
    intro hc
    exact ((h.mem_erase_iff).mp hc).1 rfl
  · simp [hm]

theorem queueReachable_nodup {q : List Int} (h : QueueReachable q) : q.Nodup := by
  induction h with
  | start => exact List.nodup_nil
  | step _ hs ih =>
      cases hs with
      | poll tids => exact executeEnqueue_nodup tids ih
      | finish tid => exact finishStep_nodup ih tid

/-- C1: a transformation identifier occurs in the in-flight list transInQueue
at most once in every state reachable from the initial empty list (execute()
appends only identifiers that are not yet present), and immediately after the
finally block of the worker loop runs for an identifier that identifier is
absent from the list. -/
theorem c1_inFlightUnique : ∀ q : List Int, QueueReachable q →
    q.Nodup ∧ ∀ tid : Int, tid ∉ finishStep q tid := by
  intro q h
  exact ⟨queueReachable_nodup h, fun tid => not_mem_finishStep (queueReachable_nodup h) tid⟩

/-- C1 witness: the concrete reachable state [5] is duplicate-free and 5 is
gone right after the worker finishes processing it. -/
theorem c1_inFlightUnique_witness :
    ([(5 : Int)].Nodup) ∧ (5 : Int) ∉ finishStep [5] 5 := by
  have reach : QueueReachable [(5 : Int)] := by
    have h := QueueReachable.step QueueReachable.start (QueueStep.poll [] [5])
    simpa [executeEnqueue, enqueueStep] using h
  exact ⟨(c1_inFlightUnique [5] reach).1, (c1_inFlightUnique [5] reach).2 5⟩

/-!
## Sampling (claim C2)

__applyReduction, with self.maxFiles read from the MaxFiles option:

    if len( lfns ) <= self.maxFiles:
      firstFile = 0
    else:
      firstFile = int( random.uniform( 0, len( lfns ) - self.maxFiles ) )
    lfns = lfns[firstFile:firstFile + self.maxFiles - 1]

The value int(random.uniform(0, n)) lies in [0, n]; it is modelled by the
firstFile parameter together with that bound as a hypothesis.
-/

/-- normalisation of one Python slice index against a list of length n. -/
def pyIndex (n : Nat) (i : Int) : Nat :=
  if i < 0 then ((n : Int) + i).toNat else min i.toNat n

/-- Python slice l[a:b] with possibly negative indices. -/
def pySlice {α : Type} (l : List α) (a b : Int) : List α :=
  (l.take (pyIndex l.length b)).drop (pyIndex l.length a)

/-- __applyReduction: the random draw int(random.uniform(0, len - maxFiles))
is passed in as firstFile. -/
def applyReduction (maxFiles firstFile : Nat) (lfns : List String) : List String :=
  let f : Nat := if lfns.length ≤ maxFiles then 0 else firstFile
  pySlice lfns (f : Int) ((f : Int) + (maxFiles : Int) - 1)

/-- the slice lfns[f : f + maxFiles - 1] always keeps the window of at most
maxFiles - 1 items starting at f, where f is 0 when the list fits and the
random offset otherwise. -/
theorem applyReduction_char (maxFiles firstFile : Nat) (lfns : List String)
    (hM : 1 ≤ maxFiles)
    (hfn : (if lfns.length ≤ maxFiles then 0 else firstFile) ≤ lfns.length) :
    applyReduction maxFiles firstFile lfns =
      (lfns.drop (if lfns.length ≤ maxFiles then 0 else firstFile)).take (maxFiles - 1) := by
  set f : Nat := if lfns.length ≤ maxFiles then 0 else firstFile with hfdef
  have h1 : ¬ ((f : Int) < 0) := by omega
  have h3 : ¬ ((f : Int) + (maxFiles : Int) - 1 < 0) := by omega
  have h2 : (f : Int).toNat = f := by omega
  have h4 : ((f : Int) + (maxFiles : Int) - 1).toNat = f + maxFiles - 1 := by omega
  simp only [applyReduction, pySlice, pyIndex, ← hfdef, h1, h3, if_false, h2, h4]
  rw [Nat.min_eq_left hfn, List.drop_take]
  rw [List.take_eq_take]
  simp only [List.length_drop]
  omega

/-- C2 counterexample: with maxFiles = 2 and a list of exactly 2 items
(U = M), __applyReduction drops the last item instead of returning the full
list unchanged as the claim states for U <= M. -/
theorem c2_sampling_counterexample :
    applyReduction 2 0 ["a", "b"] ≠ ["a", "b"] := by decide

/-- C2 amended: for a configured maximum M with 1 <= M and a random offset
bounded by U - M, the sampling step returns the full list unchanged when
U < M strictly; and whenever U >= M (including U = M) it returns exactly
M - 1 items forming a contiguous order-preserving window of the original
list starting at an offset bounded by U - M. -/
theorem c2_sampling_amended (maxFiles firstFile : Nat) (lfns : List String)
    (hM : 1 ≤ maxFiles) (hf : firstFile ≤ lfns.length - maxFiles) :
    (lfns.length < maxFiles → applyReduction maxFiles firstFile lfns = lfns) ∧
    (maxFiles ≤ lfns.length →
      ∃ off, off ≤ lfns.length - maxFiles ∧
        applyReduction maxFiles firstFile lfns = (lfns.drop off).take (maxFiles - 1) ∧
        (applyReduction maxFiles firstFile lfns).length = maxFiles - 1) := by
  constructor
  · intro hU
    have hle : lfns.length ≤ maxFiles := Nat.le_of_lt hU
    have hkey := applyReduction_char maxFiles firstFile lfns hM (by simp [hle])
    simp only [hle, if_true, List.drop_zero] at hkey
    rw [hkey]
    exact List.take_of_length_le (by omega)
  · intro hU
    by_cases hle : lfns.length ≤ maxFiles
    · have hEq : lfns.length = maxFiles := Nat.le_antisymm hle hU
      have hkey := applyReduction_char maxFiles firstFile lfns hM (by simp [hle])
      simp only [hle, if_true] at hkey
      refine ⟨0, by omega, hkey, ?_⟩
      rw [hkey]
      simp only [List.length_take, List.length_drop]
      omega
    · have hlt : maxFiles < lfns.length := Nat.lt_of_not_le hle
      have hfn : firstFile ≤ lfns.length := by omega
      have hkey := applyReduction_char maxFiles firstFile lfns hM (by simp [hle, hfn])
      simp only [hle, if_false] at hkey
      refine ⟨firstFile, hf, hkey, ?_⟩
      rw [hkey]
      simp only [List.length_take, List.length_drop]
      omega

/-- C2 amended witness: maxFiles = 2, random offset 1, four items; the result
is the window ["b"] of length 1 = maxFiles - 1. -/
theorem c2_sampling_amended_witness :
    ((["a", "b", "c", "d"] : List String).length < 2 →
      applyReduction 2 1 ["a", "b", "c", "d"] = ["a", "b", "c", "d"]) ∧
    (2 ≤ (["a", "b", "c", "d"] : List String).length →
      ∃ off, off ≤ (["a", "b", "c", "d"] : List String).length - 2 ∧
        applyReduction 2 1 ["a", "b", "c", "d"] =
          ((["a", "b", "c", "d"] : List String).drop off).take (2 - 1) ∧
        (applyReduction 2 1 ["a", "b", "c", "d"]).length = 2 - 1) :=
  c2_sampling_amended 2 1 ["a", "b", "c", "d"] (by decide) (by decide)

/-!
## Data model of the agent

Resolved locations: lfn -> (storage element -> metadata); the replica cache
maps a transformation identifier to timestamped snapshots of such maps.
Timestamps are modelled as integers counted in days, so that the validity
window timedelta(days = self.replicaCacheValidity) is a plain subtraction.
-/

abbrev Locations := List (String × String)

abbrev ReplicaMap := List (String × Locations)

abbrev Cache := List (Int × List (Int × ReplicaMap))

instance instDecEqReplicaMap : DecidableEq ReplicaMap := inferInstance

instance instDecEqSnapshots : DecidableEq (List (Int × ReplicaMap)) := inferInstance

instance instDecEqCache : DecidableEq Cache := inferInstance

/-- a row of the transformation registry reply, as far as the agent reads it:
transDict with keys TransformationID, Type, Status and the optional Plugin. -/
structure TransDict : Type where
  transformationID : Int
  ttype : String
  status : String
  plugin : Option String
deriving DecidableEq

/-- a work-item record; the agent only reads its LFN field. -/
structure TransFile : Type where
  lfn : String
deriving DecidableEq

/-- remote calls the agent can issue, recorded in a trace. -/
inductive RCall : Type
  | getTransformationFiles (transID : Int)
  | setTransformationParameter (transID : Int) (param value : String)
  | addTaskForTransformation (transID : Int) (lfns : List String) (se : String)
  | getTransformation (name : String)
  | getActiveReplicas (lfns : List String)
  | getReplicas (lfns : List String)
  | setFileStatusForTransformation (transID : Int) (status : String) (lfns : List String)
deriving DecidableEq

/-- the mutable attributes of the agent that the claims concern: the replica
cache, the per-transformation unused-file counters, plus the trace of remote
calls issued so far (a model artefact). -/
structure St : Type where
  cache : Cache
  unused : List (Int × Int)
  calls : List RCall
deriving DecidableEq

/-- results of the external collaborators (remote registry, catalog, plugin)
and the configured options; pure oracles, one value per distinct request. -/
structure Env : Type where
  now : Int
  maxFiles : Nat
  randomOffset : Nat
  getTransformationFiles : Int → DRes (List TransFile)
  setParamOk : Bool
  addTaskOk : Nat → Bool
  getTransformation : String → DRes TransDict
  transDBResult : DRes (List TransDict)
  pluginRes : DRes Unit
  generateTasks : DRes (List (String × List String))
  writeOk : Bool

/-- self.replicaCacheValidity, set to 2 (days) in the constructor. -/
def replicaCacheValidity : Int := 2

/-!
## The replica cache (claims C5, C6, C7, C8)

__getDataReplicas scans every snapshot stored for the transformation,
copying the locations of every requested lfn found there into dataReplicas
and popping from the snapshot every lfn that is not in the requested list.
-/

/-- the scan loop of __getDataReplicas over the snapshots of one
transformation: returns the accumulated dataReplicas dictionary and the
compacted snapshots. -/
def scanSnaps (lfns : List String) :
    List (Int × ReplicaMap) → ReplicaMap → ReplicaMap × List (Int × ReplicaMap)
  | [], acc => (acc, [])
  | (t, m) :: rest, acc =>
      let hits := lfns.filter (fun l => dmem m l)
      let acc1 := hits.foldl
        (fun a l => match dlookup m l with | some v => dinsert a l v | none => a) acc
      let r := scanSnaps lfns rest acc1
      (r.1, (t, m.filter (fun kv => decide (kv.1 ∈ lfns))) :: r.2)

/-- the inner loop of __cleanCache: drop every snapshot older than the time
limit and every snapshot whose location map is empty. -/
def cleanSnaps (timeLimit : Int) (snaps : List (Int × ReplicaMap)) :
    List (Int × ReplicaMap) :=
  snaps.filter (fun s => decide (¬ (s.1 < timeLimit ∨ s.2 = [])))

/-- __cleanCache without the persistence step: evict stale and empty
snapshots, then drop every transformation left with no snapshots. -/
def cleanCache (now : Int) : Cache → Cache
  | [] => []
  | (tid, snaps) :: rest =>
      let snaps1 := cleanSnaps (now - replicaCacheValidity) snaps
      if snaps1 = [] then cleanCache now rest
      else (tid, snaps1) :: cleanCache now rest

/-- the pickle.dump body of __writeCache: raises when the dump fails,
modelled by the writeOk flag. -/
def writeCacheAttempt (writeOk : Bool) : Except PyErr Unit :=
  if writeOk then Except.ok () else Except.error (PyErr.osError "could not write replica cache file")

/-- __writeCache: the try block around the dump catches every failure and
only logs it, so the method always returns normally. -/
def writeCache (writeOk : Bool) : Except PyErr Unit :=
  match writeCacheAttempt writeOk with
  | Except.ok _ => Except.ok ()
  | Except.error _ => Except.ok ()

/-- __getDataReplicas. The scan phase and the compaction run under the lock;
afterwards newLFNs collects the requested lfns that had no cache hit. For a
non-empty newLFNs the source executes

    res = self.__getDataReplicasRM( self, transID, newLFNs, active = active )

a bound-method call with self passed again explicitly, so the positional
arguments shift by one slot and the keyword active = active collides with
the third positional: Python raises TypeError at the call, before any
catalog request is made. Only when every lfn hit the cache does control
reach __cleanCache and return S_OK(dataReplicas). -/
def getDataReplicas (now : Int) (transID : Int) (lfns : List String) (active : Bool)
    (st : St) : Except PyErr (DRes ReplicaMap) × St :=
  let snaps := (dlookup st.cache transID).getD []
  let scanned := scanSnaps lfns snaps []
  let cache1 := if dmem st.cache transID then dinsert st.cache transID scanned.2 else st.cache
  let newLFNs := lfns.filter (fun l => decide (¬ dmem scanned.1 l))
  if newLFNs = [] then
    (Except.ok (DRes.sok scanned.1), ⟨cleanCache now cache1, st.unused, st.calls⟩)
  else
    (Except.error (PyErr.typeError
        "getDataReplicasRM got multiple values for keyword argument active"),
      ⟨cache1, st.unused, st.calls⟩)

/-- whether a storage-element name matches re.search for failover, modelled
by a substring test. -/
def containsSub (s pat : String) : Bool :=
  (s.splitOn pat).length != 1

/-- the catalog reply: per-lfn success with a location map, per-lfn failure
with a reason string. -/
structure CatalogResult : Type where
  successful : List (String × Locations)
  failed : List (String × String)
deriving DecidableEq

/-- the replica-collection loop of __getDataReplicasRM: keep every storage
element of every successful lfn, except failover elements when active. -/
def buildReplicas (active : Bool) (successful : List (String × Locations)) : ReplicaMap :=
  successful.foldl
    (fun acc p =>
      p.2.foldl
        (fun acc2 seV =>
          if active && containsSub seV.1.toLower "failover" then acc2
          else
            let cur := (dlookup acc2 p.1).getD []
            dinsert acc2 p.1 (dinsert cur seV.1 seV.2))
        acc)
    []

/-- __getDataReplicasRM as written (lines 349-385); unreachable from
__getDataReplicas because its call site raises TypeError first. The rm
results come from the catalog oracles; the missing-file report is issued
best-effort. -/
def getDataReplicasRM (getActiveReplicas getReplicas : List String → DRes CatalogResult)
    (transID : Int) (lfns : List String) (active : Bool) (st : St) :
    Except PyErr (DRes ReplicaMap) × St :=
  let res := if active then getActiveReplicas lfns else getReplicas lfns
  let calls1 := st.calls ++
    [if active then RCall.getActiveReplicas lfns else RCall.getReplicas lfns]
  match res with
  | DRes.serr m => (Except.ok (DRes.serr m), ⟨st.cache, st.unused, calls1⟩)
  | DRes.sok catRes =>
      let dataReplicas := buildReplicas active catRes.successful
      let missingLfns := (catRes.failed.filter
        (fun p => containsSub p.2 "No such file or directory")).map Prod.fst
      let calls2 := if missingLfns = [] then calls1
        else calls1 ++ [RCall.setFileStatusForTransformation transID "MissingLFC" missingLfns]
      if dataReplicas = [] then
        (Except.ok (DRes.serr "No replicas obtained"), ⟨st.cache, st.unused, calls2⟩)
      else
        (Except.ok (DRes.sok dataReplicas), ⟨st.cache, st.unused, calls2⟩)

/-!
## Cache lemmas and the theorems for claims C5 to C8
-/

theorem cleanSnaps_mem {timeLimit : Int} {snaps : List (Int × ReplicaMap)}
    {p : Int × ReplicaMap} (h : p ∈ cleanSnaps timeLimit snaps) :
    p ∈ snaps ∧ ¬ p.1 < timeLimit ∧ p.2 ≠ [] := by
  unfold cleanSnaps at h
  have h2 := List.mem_filter.mp h
  refine ⟨h2.1, ?_⟩
  have := of_decide_eq_true h2.2
  tauto

theorem cleanCache_mem {now : Int} {c : Cache} {e : Int × List (Int × ReplicaMap)}
    (h : e ∈ cleanCache now c) :
    e.2 ≠ [] ∧ ∃ sn, (e.1, sn) ∈ c ∧ e.2 = cleanSnaps (now - replicaCacheValidity) sn := by
  induction c with
  | nil => simp [cleanCache] at h
  | cons p rest ih =>
      unfold cleanCache at h
      by_cases hemp : cleanSnaps (now - replicaCacheValidity) p.2 = []
      · simp only [hemp, if_true] at h
        obtain ⟨hne, sn, hmem, hsn⟩ := ih h
        exact ⟨hne, sn, List.mem_cons.mpr (Or.inr hmem), hsn⟩
      · simp only [hemp, if_false, List.mem_cons] at h
        rcases h with h | h
        · subst h
          exact ⟨hemp, p.2, List.mem_cons.mpr (Or.inl rfl), rfl⟩
        · obtain ⟨hne, sn, hmem, hsn⟩ := ih h
          exact ⟨hne, sn, List.mem_cons.mpr (Or.inr hmem), hsn⟩

theorem cleanCache_post (now : Int) (c : Cache) :
    ∀ tid snaps, dlookup (cleanCache now c) tid = some snaps →
      snaps ≠ [] ∧ ∀ p ∈ snaps, ¬ p.1 < now - replicaCacheValidity ∧ p.2 ≠ [] := by
  intro tid snaps hlk
  have hmem := dlookup_mem hlk
  obtain ⟨hne, sn, _, hsn⟩ := cleanCache_mem hmem
  refine ⟨hne, ?_⟩
  intro p hp
  have hsn2 : snaps = cleanSnaps (now - replicaCacheValidity) sn := hsn
  rw [hsn2] at hp
  exact (cleanSnaps_mem hp).2

/-- C8: the eviction pass leaves no snapshot older than the two-day validity
window, no snapshot with an empty location map, and no transformation entry
with no snapshots; the persistence step always returns normally, a dump
failure being caught and logged inside __writeCache; and the cache held
after any completed resolution call satisfies the same eviction
postcondition, because __getDataReplicas runs __cleanCache before
returning. -/
theorem c8_cacheEviction (now : Int) (writeOk : Bool) (cache : Cache) :
    (∀ tid snaps, dlookup (cleanCache now cache) tid = some snaps →
        snaps ≠ [] ∧ ∀ p ∈ snaps, ¬ p.1 < now - replicaCacheValidity ∧ p.2 ≠ []) ∧
    writeCache writeOk = Except.ok () ∧
    (∀ transID lfns active st r st1,
        getDataReplicas now transID lfns active st = (Except.ok (DRes.sok r), st1) →
        ∀ tid snaps, dlookup st1.cache tid = some snaps →
          snaps ≠ [] ∧ ∀ p ∈ snaps, ¬ p.1 < now - replicaCacheValidity ∧ p.2 ≠ []) := by
  refine ⟨cleanCache_post now cache, ?_, ?_⟩
  · cases writeOk <;> rfl
  · intro transID lfns active st r st1 h
    unfold getDataReplicas at h
    by_cases hnew : lfns.filter
        (fun l => decide (¬ dmem (scanSnaps lfns ((dlookup st.cache transID).getD []) []).1 l)) = []
    · simp only [hnew, if_true] at h
      have hst : st1.cache = cleanCache now
          (if dmem st.cache transID
            then dinsert st.cache transID
              (scanSnaps lfns ((dlookup st.cache transID).getD []) []).2
            else st.cache) := by
        have := congrArg Prod.snd h
        simp at this
        rw [← this]
      rw [hst]
      exact cleanCache_post now _
    · simp only [hnew, if_false, Prod.mk.injEq] at h
      exact absurd h.1 (by simp)

/-- C8 witness: a concrete cache holding a fresh nonempty snapshot, a stale
snapshot and an empty transformation entry, cleaned at time 6 with a failing
dump. -/
theorem c8_cacheEviction_witness :
    ([((5 : Int), [("a", [("SE1", "m1")])])] ≠ [] ∧
      ∀ p ∈ [((5 : Int), ([("a", [("SE1", "m1")])] : ReplicaMap))],
        ¬ p.1 < 6 - replicaCacheValidity ∧ p.2 ≠ []) ∧
    writeCache false = Except.ok () := by
  have h := c8_cacheEviction 6 false
    [(1, [(5, [("a", [("SE1", "m1")])]), (0, [("b", [("SE2", "m2")])])], ), (2, [(5, [])])]
  exact ⟨h.1 1 [(5, [("a", [("SE1", "m1")])])] (by decide), h.2.1⟩

theorem scanSnaps_compact (lfns : List String) :
    ∀ (snaps : List (Int × ReplicaMap)) (acc : ReplicaMap),
      ∀ p ∈ (scanSnaps lfns snaps acc).2, ∀ kv ∈ p.2, kv.1 ∈ lfns := by
  intro snaps
  induction snaps with
  | nil => intro acc p hp; simp [scanSnaps] at hp
  | cons s rest ih =>
      intro acc p hp
      obtain ⟨t, m⟩ := s
      simp only [scanSnaps, List.mem_cons] at hp
      rcases hp with hp | hp
      · subst hp
        intro kv hkv
        exact of_decide_eq_true (List.mem_filter.mp hkv).2
      · exact ih _ p hp

theorem dinsert_keys {κ β : Type} [DecidableEq κ] :
    ∀ (l : List (κ × β)) (k : κ) (v : β), ∀ k1, k1 ∈ (dinsert l k v).map Prod.fst →
      k1 ∈ l.map Prod.fst ∨ k1 = k := by
  intro l k v
  induction l with
  | nil => intro k1 h; simp [dinsert] at h; exact Or.inr h
  | cons p rest ih =>
      intro k1 h
      by_cases hk : p.1 = k
      · simp only [dinsert, hk, if_true, List.map_cons, List.mem_cons] at h
        rcases h with h | h
        · exact Or.inr h
        · exact Or.inl (by rw [List.map_cons]; exact List.mem_cons.mpr (Or.inr h))
      · simp only [dinsert, hk, if_false, List.map_cons, List.mem_cons] at h
        rcases h with h | h
        · exact Or.inl (by rw [List.map_cons]; exact List.mem_cons.mpr (Or.inl h))
        · rcases ih k1 h with h1 | h1
          · exact Or.inl (by rw [List.map_cons]; exact List.mem_cons.mpr (Or.inr h1))
          · exact Or.inr h1

theorem dinsert_keys_nodup {κ β : Type} [DecidableEq κ]
    {l : List (κ × β)} (h : (l.map Prod.fst).Nodup) (k : κ) (v : β) :
    ((dinsert l k v).map Prod.fst).Nodup := by
  induction l with
  | nil => simp [dinsert]
  | cons p rest ih =>
      by_cases hk : p.1 = k
      · simp only [dinsert, hk, if_true, List.map_cons]
        simp only [List.map_cons, List.nodup_cons] at h
        exact List.nodup_cons.mpr ⟨hk ▸ h.1, h.2⟩
      · simp only [dinsert, hk, if_false, List.map_cons]
        simp only [List.map_cons, List.nodup_cons] at h
        refine List.nodup_cons.mpr ⟨?_, ih h.2⟩
        intro hc
        rcases dinsert_keys rest k v p.1 hc with h1 | h1
        · exact h.1 h1
        · exact hk h1

theorem cleanCache_lookup {now : Int} :
    ∀ {c : Cache}, (c.map Prod.fst).Nodup →
      ∀ {tid snaps}, dlookup (cleanCache now c) tid = some snaps →
        ∃ s0, dlookup c tid = some s0 ∧
          snaps = cleanSnaps (now - replicaCacheValidity) s0 := by
  intro c
  induction c with
  | nil => intro _ tid snaps h; simp [cleanCache, dlookup] at h
  | cons p rest ih =>
      intro hnd tid snaps h
      simp only [List.map_cons, List.nodup_cons] at hnd
      by_cases hk : p.1 = tid
      · by_cases hemp : cleanSnaps (now - replicaCacheValidity) p.2 = []
        · unfold cleanCache at h
          simp only [hemp, if_true] at h
          obtain ⟨s0, hlk, _⟩ := ih hnd.2 h
          have : tid ∈ rest.map Prod.fst := by
            have := dlookup_mem hlk
            exact List.mem_map.mpr ⟨(tid, s0), this, rfl⟩
          exact absurd (hk ▸ this) hnd.1
        · unfold cleanCache at h
          simp only [hemp, if_false, dlookup, hk, if_true, Option.some.injEq] at h
          exact ⟨p.2, by simp [dlookup, hk], h.symm⟩
      · unfold cleanCache at h
        by_cases hemp : cleanSnaps (now - replicaCacheValidity) p.2 = []
        · simp only [hemp, if_true] at h
          obtain ⟨s0, hlk, hsn⟩ := ih hnd.2 h
          exact ⟨s0, by simp [dlookup, hk, hlk], hsn⟩
        · simp only [hemp, if_false, dlookup, hk, if_false] at h
          obtain ⟨s0, hlk, hsn⟩ := ih hnd.2 h
          exact ⟨s0, by simp [dlookup, hk, hlk], hsn⟩

/-- C7: when a resolution request over the lfns list for a transformation
completes (returns S_OK), no snapshot stored for that transformation in the
resulting cache holds an entry for a file identifier outside the requested
list: the scan popped every such entry, and the eviction pass only removes
further material. The hypothesis that cache keys are duplicate-free reflects
that the cache is a Python dictionary. -/
theorem c7_cacheCompaction (now : Int) (transID : Int) (lfns : List String)
    (active : Bool) (st : St) (r : ReplicaMap) (st1 : St)
    (hnd : (st.cache.map Prod.fst).Nodup)
    (h : getDataReplicas now transID lfns active st = (Except.ok (DRes.sok r), st1)) :
    ∀ snaps, dlookup st1.cache transID = some snaps →
      ∀ p ∈ snaps, ∀ kv ∈ p.2, kv.1 ∈ lfns := by
  intro snaps hlk
  unfold getDataReplicas at h
  by_cases hnew : lfns.filter
      (fun l => decide (¬ dmem (scanSnaps lfns ((dlookup st.cache transID).getD []) []).1 l)) = []
  · simp only [hnew, if_true, Prod.mk.injEq] at h
    have hcache : st1.cache = cleanCache now
        (if dmem st.cache transID
          then dinsert st.cache transID
            (scanSnaps lfns ((dlookup st.cache transID).getD []) []).2
          else st.cache) := by
      rw [← h.2]
    by_cases hm : dmem st.cache transID
    · simp only [hm, if_true] at hcache
      have hnd1 : ((dinsert st.cache transID
          (scanSnaps lfns ((dlookup st.cache transID).getD []) []).2).map Prod.fst).Nodup :=
        dinsert_keys_nodup hnd transID _
      rw [hcache] at hlk
      obtain ⟨s0, hlk0, hsn⟩ := cleanCache_lookup hnd1 hlk
      rw [dlookup_dinsert_self] at hlk0
      have hs0 : s0 = (scanSnaps lfns ((dlookup st.cache transID).getD []) []).2 :=
        (Option.some.injEq _ _ ▸ hlk0).symm
      intro p hp kv hkv
      rw [hsn, hs0] at hp
      have hp2 := (cleanSnaps_mem hp).1
      exact scanSnaps_compact lfns _ [] p hp2 kv hkv
    · simp only [hm, if_false] at hcache
      rw [hcache] at hlk
      obtain ⟨s0, hlk0, _⟩ := cleanCache_lookup hnd hlk
      have hnone : dlookup st.cache transID = none := by
        unfold dmem at hm
        cases hdl : dlookup st.cache transID with
        | none => rfl
        | some v => rw [hdl] at hm; simp at hm
      rw [hnone] at hlk0
      exact absurd hlk0 (by simp)
  · simp only [hnew, if_false, Prod.mk.injEq] at h
    exact absurd h.1 (by simp)

/-- C7 witness: a request for the single lfn a over a cache whose only
snapshot holds exactly that lfn completes, and the entry found in the
surviving snapshot afterwards is among the requested lfns. -/
theorem c7_cacheCompaction_witness : ("a" : String) ∈ ["a"] :=
  c7_cacheCompaction 6 1 ["a"] true
    ⟨[(1, [(5, [("a", [("SE1", "m1")])])], )], [], []⟩
    [("a", [("SE1", "m1")])]
    ⟨[(1, [(5, [("a", [("SE1", "m1")])])], )], [], []⟩
    (by decide) (by decide)
    [(5, [("a", [("SE1", "m1")])])] (by decide)
    (5, [("a", [("SE1", "m1")])]) (by decide)
    ("a", [("SE1", "m1")]) (by decide)

/-- the concrete state used for the C5 evaluation: transformation 3 has one
cached snapshot holding lfn a. -/
def stC5 : St := ⟨[(3, [(5, [("a", [("SE1", "m1")])])], )], [], []⟩

/-- C5: the claim fails on the code. For a request over ["a", "b"] where a
is cached and b is not, the batch call for the remaining lfns is the bound
call self.__getDataReplicasRM(self, ...) whose extra self makes the keyword
active collide with a positional argument: __getDataReplicas raises
TypeError, so the cached lfn a is never returned in any result map (no
catalog call is issued either; the compacted cache survives). -/
theorem c5_cacheHit_bug :
    getDataReplicas 6 3 ["a", "b"] true stC5 =
      (Except.error (PyErr.typeError
          "getDataReplicasRM got multiple values for keyword argument active"),
        ⟨[(3, [(5, [("a", [("SE1", "m1")])])], )], [], []⟩) := by decide

/-- the concrete state used for the C6 evaluation: transformation 4 has one
cached snapshot holding lfn x; the request also asks for y. -/
def stC6 : St := ⟨[(4, [(9, [("x", [("SE2", "m2")])])], )], [], []⟩

/-- C6: the claim fails on the code. With at least one cache hit and a
nonempty remainder, __getDataReplicas never reaches the soft-error branch
that would return the cache-scan results: the call into __getDataReplicasRM
raises TypeError first, so no success result carrying the cache hits is
returned. -/
theorem c6_softError_bug :
    (getDataReplicas 10 4 ["x", "y"] true stC6).1 =
      Except.error (PyErr.typeError
        "getDataReplicasRM got multiple values for keyword argument active") ∧
    ∀ r, (getDataReplicas 10 4 ["x", "y"] true stC6).1 ≠ Except.ok (DRes.sok r) := by
  refine ⟨by decide, ?_⟩
  intro r
  have h : (getDataReplicas 10 4 ["x", "y"] true stC6).1 =
      Except.error (PyErr.typeError
        "getDataReplicasRM got multiple values for keyword argument active") := by decide
  rw [h]
  simp

/-!
## The transformation pipeline (claims C3, C4, C9)

_getTransformationFiles(self, transDict) asks the registry for the Unused
files of the transformation; an empty reply triggers the best-effort Flush
to Active transition and S_OK() with no value; an unchanged unused count
with a non-Flush status also short-circuits to S_OK() with no value.
-/

/-- _getTransformationFiles with its transDict argument supplied. -/
def getTransformationFilesStep (env : Env) (transDict : TransDict) (st : St) :
    Except PyErr (DRes (Option (List TransFile))) × St :=
  let transID := transDict.transformationID
  let st1 : St := ⟨st.cache, st.unused, st.calls ++ [RCall.getTransformationFiles transID]⟩
  match env.getTransformationFiles transID with
  | DRes.serr m => (Except.ok (DRes.serr m), st1)
  | DRes.sok transFiles =>
      if transFiles = [] then
        if transDict.status = "Flush" then
          (Except.ok (DRes.sok none),
            ⟨st1.cache, st1.unused,
              st1.calls ++ [RCall.setTransformationParameter transID "Status" "Active"]⟩)
        else
          (Except.ok (DRes.sok none), st1)
      else
        if (transFiles.length : Int) = (dlookup st.unused transID).getD 0 ∧
            transDict.status ≠ "Flush" then
          (Except.ok (DRes.sok none), st1)
        else
          (Except.ok (DRes.sok (some transFiles)), st1)

/-- the task-submission loop of processTransformation: one
addTaskForTransformation call per (se, lfns) group, tracking allCreated,
created, the remaining unused count and the call trace. The result of the
i-th submission is env.addTaskOk i. -/
def submitLoop (env : Env) (transID : Int) :
    Nat → Bool → Int → Int → List RCall → List (String × List String) →
      Bool × Int × Int × List RCall
  | _, allCreated, created, unusedFiles, calls, [] => (allCreated, created, unusedFiles, calls)
  | i, allCreated, created, unusedFiles, calls, (se, lfns) :: rest =>
      let calls1 := calls ++ [RCall.addTaskForTransformation transID lfns se]
      if env.addTaskOk i then
        submitLoop env transID (i + 1) allCreated (created + 1)
          (unusedFiles - (lfns.length : Int)) calls1 rest
      else
        submitLoop env transID (i + 1) false created unusedFiles calls1 rest

/-- lines 186-212 of processTransformation: submit every generated task
group, store the remaining unused count, and when the status was Flush and
every submission succeeded issue the transition to Active (its failure is
only logged: setParamOk is read nowhere else); the method then returns
S_OK(). -/
def submitTasksAndFlush (env : Env) (transID : Int) (status : String)
    (tasks : List (String × List String)) (unusedTotal : Int) (st : St) :
    Except PyErr (DRes Unit) × St :=
  let r := submitLoop env transID 0 true 0 unusedTotal st.calls tasks
  let st1 : St := ⟨st.cache, dinsert st.unused transID r.2.2.1, r.2.2.2⟩
  if status = "Flush" ∧ r.1 = true then
    (Except.ok (DRes.sok ()),
      ⟨st1.cache, st1.unused,
        st1.calls ++ [RCall.setTransformationParameter transID "Status" "Active"]⟩)
  else
    (Except.ok (DRes.sok ()), st1)

/-- lines 149-212 of processTransformation: everything after the enumeration
call, taking the enumeration result as an argument. The plugin (an external
collaborator) is modelled by the pluginRes and generateTasks oracles. -/
def processTransformationRest (env : Env) (transDict : TransDict)
    (res : DRes (Option (List TransFile))) (st : St) : Except PyErr (DRes Unit) × St :=
  let transID := transDict.transformationID
  let replicateOrRemove := transDict.ttype.toLower = "replication" ∨
    transDict.ttype.toLower = "removal"
  match res with
  | DRes.serr m => (Except.ok (DRes.serr m), st)
  | DRes.sok vOpt =>
      match vOpt with
      | none =>
          -- transFiles = transFiles[ Value ] is None here, and the list
          -- comprehension over it raises
          (Except.error (PyErr.typeError "NoneType object is not iterable"), st)
      | some transFiles =>
          let lfns := transFiles.map TransFile.lfn
          let lfns1 := if replicateOrRemove
            then applyReduction env.maxFiles env.randomOffset lfns else lfns
          let unusedTotal : Int := lfns1.length
          match getDataReplicas env.now transID lfns1 (! decide replicateOrRemove) st with
          | (Except.error e, st1) => (Except.error e, st1)
          | (Except.ok (DRes.serr m), st1) => (Except.ok (DRes.serr m), st1)
          | (Except.ok (DRes.sok _dataReplicas), st1) =>
              match env.pluginRes with
              | DRes.serr m => (Except.ok (DRes.serr m), st1)
              | DRes.sok _ =>
                  match env.generateTasks with
                  | DRes.serr m => (Except.ok (DRes.serr m), st1)
                  | DRes.sok tasks =>
                      submitTasksAndFlush env transID transDict.status tasks unusedTotal st1

/-- the first pipeline statement of processTransformation as written:

    transFiles = self._getTransformationFiles()

_getTransformationFiles requires the positional parameter transDict, which
this call does not supply, so Python raises TypeError at the call itself,
before the helper body (and hence any remote call) can run. -/
def enumerationCallNoArg (st : St) : Except PyErr (DRes (Option (List TransFile))) × St :=
  (Except.error (PyErr.typeError
      "getTransformationFiles takes exactly 2 arguments, 1 given"), st)

/-- processTransformation as written: the argument-less enumeration call
raises, so the rest of the pipeline is never entered. -/
def processTransformation (env : Env) (transDict : TransDict) (st : St) :
    Except PyErr (DRes Unit) × St :=
  match enumerationCallNoArg st with
  | (Except.error e, st1) => (Except.error e, st1)
  | (Except.ok r, st1) => processTransformationRest env transDict r st1

/-!
## getTransformations (claim C10)

The constructor assigns exactly these attributes on self; the general
purpose branch of getTransformations reads self.transDB, which is not among
them, so Python raises AttributeError there. Only the single-transformation
branch, which uses self.transfClient, can return a descriptor list.
-/

/-- the attributes assigned on self by the constructor (self.replicaCache is
assigned inside __readCache, called from the constructor). -/
def constructorAttrNames : List String :=
  ["pluginLocation", "checkCatalog", "transformationStatus", "maxFiles",
   "transformationTypes", "transfClient", "rm", "transQueue", "transInQueue",
   "lock", "workDirectory", "cacheFile", "replicaCacheValidity",
   "replicaCache", "unusedFiles"]

/-- wraps a single-transformation reply into the descriptor list the method
returns: transformations = [res[ Value ]]. -/
def dresSingleton (r : DRes TransDict) : DRes (List TransDict) :=
  match r with
  | DRes.sok td => DRes.sok [td]
  | DRes.serr m => DRes.serr m

/-- getTransformations: the Transformation option selects the branch; the
general purpose branch evaluates self.transDB.getTransformations(...), an
attribute lookup that raises because transDB was never assigned; the named
branch calls self.transfClient.getTransformation(transName, extraParams). -/
def getTransformations (env : Env) (transName : String) (st : St) :
    Except PyErr (DRes (List TransDict)) × St :=
  if transName = "All" then
    if "transDB" ∈ constructorAttrNames then
      (Except.ok env.transDBResult, st)
    else
      (Except.error (PyErr.attributeError
          "TransformationAgent instance has no attribute transDB"), st)
  else
    match env.getTransformation transName with
    | DRes.serr m =>
        (Except.ok (DRes.serr m),
          ⟨st.cache, st.unused, st.calls ++ [RCall.getTransformation transName]⟩)
    | DRes.sok td =>
        (Except.ok (DRes.sok [td]),
          ⟨st.cache, st.unused, st.calls ++ [RCall.getTransformation transName]⟩)

/-!
## Theorems for claims C3, C4, C9, C10
-/

/-- the addTaskForTransformation calls issued by the submission loop. -/
def taskCalls (transID : Int) (tasks : List (String × List String)) : List RCall :=
  tasks.map (fun p => RCall.addTaskForTransformation transID p.2 p.1)

theorem submitLoop_allCreated (env : Env) (transID : Int) :
    ∀ (tasks : List (String × List String)) (i : Nat) (b : Bool) (c u : Int)
      (cs : List RCall),
      (submitLoop env transID i b c u cs tasks).1 =
        (b && decide (∀ j, j < tasks.length → env.addTaskOk (i + j) = true)) := by
  intro tasks
  induction tasks with
  | nil =>
      intro i b c u cs
      simp [submitLoop]
  | cons p rest ih =>
      intro i b c u cs
      obtain ⟨se, lfns⟩ := p
      cases hok : env.addTaskOk i with
      | true =>
          rw [submitLoop]
          rw [if_pos hok]
          rw [ih]
          congr 1
          rw [decide_eq_decide]
          constructor
          · intro hall j hj
            match j with
            | 0 => simpa using hok
            | Nat.succ j0 =>
                have := hall j0 (by simpa using Nat.lt_of_succ_lt_succ hj)
                simpa [Nat.add_assoc, Nat.add_comm 1 j0] using this
          · intro hall j hj
            have := hall (j + 1) (by simpa using Nat.succ_lt_succ hj)
            simpa [Nat.add_assoc, Nat.add_comm 1 j] using this
      | false =>
          rw [submitLoop]
          rw [if_neg (by simp [hok])]
          rw [ih]
          have hz : decide (∀ j, j < rest.length + 1 → env.addTaskOk (i + j) = true) = false := by
            rw [decide_eq_false_iff_not]
            intro hall
            have := hall 0 (by omega)
            simp [hok] at this
          simp [hz]

theorem submitLoop_calls (env : Env) (transID : Int) :
    ∀ (tasks : List (String × List String)) (i : Nat) (b : Bool) (c u : Int)
      (cs : List RCall),
      (submitLoop env transID i b c u cs tasks).2.2.2 = cs ++ taskCalls transID tasks := by
  intro tasks
  induction tasks with
  | nil =>
      intro i b c u cs
      simp [submitLoop, taskCalls]
  | cons p rest ih =>
      intro i b c u cs
      obtain ⟨se, lfns⟩ := p
      cases hok : env.addTaskOk i with
      | true =>
          rw [submitLoop]
          rw [if_pos hok]
          rw [ih]
          simp [taskCalls, List.append_assoc]
      | false =>
          rw [submitLoop]
          rw [if_neg (by simp [hok])]
          rw [ih]
          simp [taskCalls, List.append_assoc]

theorem setParam_not_mem_taskCalls (transID : Int) (tasks : List (String × List String))
    (tid : Int) (p v : String) :
    RCall.setTransformationParameter tid p v ∉ taskCalls transID tasks := by
  intro h
  obtain ⟨q, _, hq⟩ := List.mem_map.mp h
  exact RCall.noConfusion hq

/-- C3: when processTransformation reaches the task-submission step with
status Flush, the setTransformationParameter(transID, Status, Active)
request is issued if and only if every addTaskForTransformation call of the
cycle succeeded (zero generated groups leave allCreated equal to True), and
the step returns S_OK regardless of the outcome of the status update, whose
failure is only logged. -/
theorem c3_flushTransition (env : Env) (transID : Int) (status : String)
    (tasks : List (String × List String)) (unusedTotal : Int)
    (cache : Cache) (unused : List (Int × Int)) (h : status = "Flush") :
    (submitTasksAndFlush env transID status tasks unusedTotal ⟨cache, unused, []⟩).1 =
      Except.ok (DRes.sok ()) ∧
    (RCall.setTransformationParameter transID "Status" "Active" ∈
        (submitTasksAndFlush env transID status tasks unusedTotal ⟨cache, unused, []⟩).2.calls ↔
      ∀ i, i < tasks.length → env.addTaskOk i = true) := by
  subst h
  unfold submitTasksAndFlush
  have hall := submitLoop_allCreated env transID tasks 0 true 0 unusedTotal []
  have hcalls := submitLoop_calls env transID tasks 0 true 0 unusedTotal []
  by_cases hA : (submitLoop env transID 0 true 0 unusedTotal [] tasks).1 = true
  · simp only [hA, and_true, if_pos rfl]
    constructor
    · rfl
    · simp only [List.nil_append] at hcalls
      simp only [hcalls]
      constructor
      · intro _ i hi
        rw [hA] at hall
        have hd := of_decide_eq_true (by simpa using hall.symm)
        simpa using hd i hi
      · intro _
        exact List.mem_append.mpr (Or.inr (by simp))
  · simp only [hA, and_false, if_false]
    constructor
    · rfl
    · simp only [List.nil_append] at hcalls
      simp only [hcalls]
      constructor
      · intro hmem
        exact absurd hmem (setParam_not_mem_taskCalls transID tasks transID "Status" "Active")
      · intro hforall
        exfalso
        apply hA
        rw [hall]
        simp only [Bool.true_and]
        rw [decide_eq_true_iff]
        intro j hj
        simpa using hforall j hj

/-- a concrete oracle environment for the witnesses: every remote call
succeeds. -/
def envW : Env :=
  { now := 0
    maxFiles := 5000
    randomOffset := 0
    getTransformationFiles := fun _ => DRes.sok []
    setParamOk := true
    addTaskOk := fun _ => true
    getTransformation := fun _ =>
      DRes.sok ⟨42, "replication", "Active", none⟩
    transDBResult := DRes.sok []
    pluginRes := DRes.sok ()
    generateTasks := DRes.sok []
    writeOk := true }

/-- C3 witness: a Flush transformation with one successfully submitted group
returns S_OK from the submission step. -/
theorem c3_flushTransition_witness :
    (submitTasksAndFlush envW 5 "Flush" [("SE1", ["a"])] 1 ⟨[], [], []⟩).1 =
      Except.ok (DRes.sok ()) :=
  (c3_flushTransition envW 5 "Flush" [("SE1", ["a"])] 1 [] [] rfl).1

/-- the transformation descriptor of the C4 evaluation. -/
def tdC4 : TransDict := ⟨7, "processing", "Active", none⟩

/-- the oracle environment of the C4 evaluation: the registry reports one
Unused file. -/
def envC4 : Env :=
  { now := 0
    maxFiles := 5000
    randomOffset := 0
    getTransformationFiles := fun _ => DRes.sok [⟨"lfnA"⟩]
    setParamOk := true
    addTaskOk := fun _ => true
    getTransformation := fun _ => DRes.serr "unused"
    transDBResult := DRes.serr "unused"
    pluginRes := DRes.sok ()
    generateTasks := DRes.sok []
    writeOk := true }

/-- the agent state of the C4 evaluation: the recorded unused count for
transformation 7 equals the current count 1. -/
def stC4 : St := ⟨[], [(7, 1)], []⟩

/-- C4: the claim fails on the code. With an unchanged unused count and a
non-Flush status, _getTransformationFiles does return S_OK() with no value
after the single enumeration call, as the spec intends; but
processTransformation never returns success on this path: iterating the
absent value raises TypeError, and the method as written raises even
earlier because it calls the enumeration helper without its required
transDict argument. -/
theorem c4_noopCycle_bug :
    getTransformationFilesStep envC4 tdC4 stC4 =
      (Except.ok (DRes.sok none), ⟨[], [(7, 1)], [RCall.getTransformationFiles 7]⟩) ∧
    (processTransformationRest envC4 tdC4 (DRes.sok none) stC4).1 =
      Except.error (PyErr.typeError "NoneType object is not iterable") ∧
    (processTransformation envC4 tdC4 stC4).1 =
      Except.error (PyErr.typeError
        "getTransformationFiles takes exactly 2 arguments, 1 given") := by
  refine ⟨by decide, by decide, by decide⟩

/-- C9: for every transformation descriptor and every starting state,
processTransformation raises TypeError at its first pipeline statement (the
enumeration helper is invoked without its required transDict parameter),
before issuing any remote call of its own: the state, including the trace
of remote calls, is unchanged, so the steps from sampling onward are
unreachable through processTransformation. -/
theorem c9_brokenEnumerationCall (env : Env) (transDict : TransDict) (st : St) :
    processTransformation env transDict st =
      (Except.error (PyErr.typeError
          "getTransformationFiles takes exactly 2 arguments, 1 given"), st) ∧
    (processTransformation env transDict st).2.calls = st.calls := by
  constructor
  · rfl
  · rfl

/-- C10: in the default mode the fetch reads self.transDB, an attribute the
constructor never assigns, and raises AttributeError before any remote
call; for any other value of the Transformation option the method consults
self.transfClient.getTransformation and returns its reply as a singleton
descriptor list. -/
theorem c10_transDBAttribute (env : Env) (st : St) :
    getTransformations env "All" st =
      (Except.error (PyErr.attributeError
          "TransformationAgent instance has no attribute transDB"), st) ∧
    ∀ name, name ≠ "All" →
      (getTransformations env name st).2.calls =
        st.calls ++ [RCall.getTransformation name] ∧
      (getTransformations env name st).1 = Except.ok (dresSingleton (env.getTransformation name)) := by
  constructor
  · have hmem : ("transDB" ∈ constructorAttrNames) = False := by decide
    simp [getTransformations, hmem]
  · intro name hname
    unfold getTransformations
    simp only [hname, if_false]
    cases h : env.getTransformation name with
    | sok td => simp [h, dresSingleton]
    | serr m => simp [h, dresSingleton]

/-- C10 witness: the default mode raises on the concrete environment, while
fetching the named transformation T42 issues exactly one registry call and
returns the singleton list. -/
theorem c10_transDBAttribute_witness :
    getTransformations envW "All" ⟨[], [], []⟩ =
      (Except.error (PyErr.attributeError
          "TransformationAgent instance has no attribute transDB"), ⟨[], [], []⟩) ∧
    (getTransformations envW "T42" ⟨[], [], []⟩).2.calls =
      [] ++ [RCall.getTransformation "T42"] ∧
    (getTransformations envW "T42" ⟨[], [], []⟩).1 =
      Except.ok (dresSingleton (envW.getTransformation "T42")) :=
  ⟨(c10_transDBAttribute envW ⟨[], [], []⟩).1,
    ((c10_transDBAttribute envW ⟨[], [], []⟩).2 "T42" (by decide)).1,
    ((c10_transDBAttribute envW ⟨[], [], []⟩).2 "T42" (by decide)).2⟩

end TransformationAgent
